import Mathlib

/-!
Shallow embedding of the reviewstats aggregation core (`reviewers.py`) and
its report builder, together with theorems checking the specification's
claims about them.

Conventions of the embedding:
* Gerrit JSON values: an approval's `value` field is a decimal string
  (`"-2"`, `"1"`, ...); `grantedOn` and the cutoff `ts` are integers.
* Python exceptions are modelled with `Except`: a computation that raises
  returns `.error`, carrying the reviewer mapping as it stands at the point
  of the raise (Python mutates the dict in place, so partial updates
  survive a raise).
* The Python dict `reviewers` is modelled as an association list with
  unique keys; `setdefault` appends at the end when the key is absent.
* `patchset.get('approvals', [])`: a patchset with an absent approvals
  list behaves exactly like one with an empty list, so the model stores
  the list directly.
* Python's `int(...)` on a value string is modelled by `pyInt`, and
  `str.lower()` by `lowerStr`; a `none` from `pyInt` corresponds to
  `ValueError`.
-/

/-- Value of an ASCII decimal digit character, `none` otherwise. -/
def digitVal (c : Char) : Option Nat :=
  if '0' ≤ c ∧ c ≤ '9' then some (c.toNat - 48) else none

/-- Accumulate a decimal digit string into a number; `none` on any
non-digit character. -/
def digitsToNat (acc : Nat) : List Char → Option Nat
  | [] => some acc
  | c :: rest =>
    match digitVal c with
    | none => none
    | some d => digitsToNat (acc * 10 + d) rest

/-- Python's `int(s)` on the value strings the program meets: an optional
leading minus sign followed by decimal digits. `none` models the
`ValueError` raised on anything else. -/
def pyInt (s : String) : Option Int :=
  match s.data with
  | [] => none
  | '-' :: rest =>
    match rest with
    | [] => none
    | _ => (digitsToNat 0 rest).map (fun n => -(n : Int))
  | l => (digitsToNat 0 l).map (fun n => (n : Int))

/-- ASCII lowering of one character, as Python's `str.lower()` does on
the ASCII account names the program compares. -/
def lowerChar (c : Char) : Char :=
  if 'A' ≤ c ∧ c ≤ 'Z' then Char.ofNat (c.toNat + 32) else c

/-- Python's `s.lower()` on ASCII strings. -/
def lowerStr (s : String) : String :=
  String.mk (s.data.map lowerChar)

/-- Project descriptor: only the fields the aggregation core reads
(`project['core-team']`, `project['name']`). -/
structure Project where
  name : String
  coreTeam : List String
deriving DecidableEq, Repr

/-- One approval record of a patchset: `type`, `value`, `by.username`
(absent field modelled as `none`), `grantedOn`. -/
structure Approval where
  type : String
  value : String
  byUsername : Option String
  grantedOn : Int
deriving DecidableEq, Repr

/-- A patchset: its (possibly empty) list of approvals. -/
structure PatchSet where
  approvals : List Approval
deriving DecidableEq, Repr

/-- The `votes` dict of a reviewer entry: exactly the four keys
`"-2", "-1", "1", "2"`, each starting at 0. -/
structure Votes where
  m2 : Nat
  m1 : Nat
  p1 : Nat
  p2 : Nat
deriving DecidableEq, Repr

/-- The all-zero `votes` dict a fresh reviewer entry starts with. -/
def Votes.zero : Votes := ⟨0, 0, 0, 0⟩

/-- Dict lookup `votes[key]`: `none` models a Python `KeyError` for any
key other than the four vote-value labels. -/
def Votes.get (v : Votes) (key : String) : Option Nat :=
  if key = "-2" then some v.m2
  else if key = "-1" then some v.m1
  else if key = "1" then some v.p1
  else if key = "2" then some v.p2
  else none

/-- Dict update `votes[key] = n` for the four vote-value labels. -/
def Votes.put (v : Votes) (key : String) (n : Nat) : Votes :=
  if key = "-2" then { v with m2 := n }
  else if key = "-1" then { v with m1 := n }
  else if key = "1" then { v with p1 := n }
  else if key = "2" then { v with p2 := n }
  else v

/-- One reviewer's statistics entry. The Python entry acquires its
`disagreements` and `total` keys via `setdefault`/`get` defaults before
first use, so modelling them as always-present zero-initialised fields is
observationally identical. -/
structure ReviewerStat where
  votes : Votes
  total : Nat
  disagreements : Nat
deriving DecidableEq, Repr

/-- A fresh reviewer entry, as created by
`reviewers.setdefault(reviewer, ...)` followed by the `disagreements` and
`total` defaults. -/
def ReviewerStat.zero : ReviewerStat := ⟨Votes.zero, 0, 0⟩

/-- The `reviewers` dict: an association list keyed by username. -/
abbrev ReviewerStats := List (String × ReviewerStat)

/-- Dict lookup `reviewers[k]`. -/
def lookupRev (rs : ReviewerStats) (k : String) : Option ReviewerStat :=
  match rs with
  | [] => none
  | (k2, s) :: t => if k2 = k then some s else lookupRev t k

/-- Dict store `reviewers[k] = v`: replaces in place when the key exists,
appends otherwise (the `setdefault` insertion point). -/
def putRev (rs : ReviewerStats) (k : String) (v : ReviewerStat) : ReviewerStats :=
  match rs with
  | [] => [(k, v)]
  | (k2, s) :: t => if k2 = k then (k2, v) :: t else (k2, s) :: putRev t k v

/-- The pair of running maxima of pass 1:
`latest_core_neg_vote` and `latest_core_pos_vote`, both initialised to 0. -/
structure CoreVotes where
  neg : Int
  pos : Int
deriving DecidableEq, Repr

/-- One iteration of pass 1 of `process_patchset` (reviewers.py lines
37-50): skip non-CRVW approvals and non-core authors, then latch the
maximum `grantedOn` into `pos` for `int(value) > 0` and into `neg`
otherwise. `int(review['value'])` failing to parse raises `ValueError`
(`.error`). -/
def corePassStep (project : Project) (acc : CoreVotes) (a : Approval) :
    Except Unit CoreVotes :=
  if a.type ≠ "CRVW" then .ok acc
  else if (a.byUsername.getD "unknown") ∉ project.coreTeam then .ok acc
  else
    match pyInt a.value with
    | none => .error ()
    | some v =>
      if v > 0 then .ok { acc with pos := max acc.pos a.grantedOn }
      else .ok { acc with neg := max acc.neg a.grantedOn }

/-- Pass 1 of `process_patchset`: fold `corePassStep` over the whole
approvals list, regardless of the cutoff. -/
def corePass (project : Project) (l : List Approval) (acc : CoreVotes) :
    Except Unit CoreVotes :=
  match l with
  | [] => .ok acc
  | a :: rest =>
    match corePassStep project acc a with
    | .error e => .error e
    | .ok acc2 => corePass project rest acc2

/-- One iteration of pass 2 of `process_patchset` (reviewers.py lines
52-79): skip approvals before the cutoff `ts` and non-CRVW approvals;
resolve the reviewer (defaulting a missing `by.username` to `"unknown"`),
create the entry if absent, bump `total`, bump `votes[value]` (a
`KeyError`, `.error`, when `value` is not one of the four labels — note
`total` has already been bumped at that point), then apply the two
disagreement rules against the pass-1 maxima `cv`. -/
def tallyStep (cv : CoreVotes) (ts : Int) (rs : ReviewerStats) (a : Approval) :
    Except ReviewerStats ReviewerStats :=
  if a.grantedOn < ts then .ok rs
  else if a.type ≠ "CRVW" then .ok rs
  else
    let reviewer := a.byUsername.getD "unknown"
    let s0 := (lookupRev rs reviewer).getD ReviewerStat.zero
    let s1 := { s0 with total := s0.total + 1 }
    let rs1 := putRev rs reviewer s1
    match s1.votes.get a.value with
    | none => .error rs1
    | some cur =>
      let s2 := { s1 with votes := s1.votes.put a.value (cur + 1) }
      let s3 :=
        if (a.value = "1" ∨ a.value = "2") ∧ a.grantedOn < cv.neg
        then { s2 with disagreements := s2.disagreements + 1 } else s2
      let s4 :=
        if (a.value = "-1" ∨ a.value = "-2") ∧ a.grantedOn < cv.pos
        then { s3 with disagreements := s3.disagreements + 1 } else s3
      .ok (putRev rs1 reviewer s4)

/-- Pass 2 of `process_patchset`: fold `tallyStep` over the approvals
list; a raise aborts the loop with the mapping as mutated so far. -/
def tallyPass (cv : CoreVotes) (ts : Int) (rs : ReviewerStats) :
    List Approval → Except ReviewerStats ReviewerStats
  | [] => .ok rs
  | a :: rest =>
    match tallyStep cv ts rs a with
    | .error s => .error s
    | .ok rs2 => tallyPass cv ts rs2 rest

/-- `process_patchset(project, patchset, reviewers, ts)` of reviewers.py:
pass 1 computes the core-team vote maxima over the full history, pass 2
tallies the approvals at or after the cutoff. A pass-1 raise happens
before any mutation of `reviewers`, so its error state is the input
mapping unchanged. -/
def process_patchset (project : Project) (patchset : PatchSet)
    (reviewers : ReviewerStats) (ts : Int) : Except ReviewerStats ReviewerStats :=
  match corePass project patchset.approvals ⟨0, 0⟩ with
  | .error _ => .error reviewers
  | .ok cv => tallyPass cv ts reviewers patchset.approvals

/-- The reviewer mapping as the caller observes it after the call,
whether or not an exception escaped (Python mutates the dict in place). -/
def runState : Except ReviewerStats ReviewerStats → ReviewerStats
  | .ok s => s
  | .error s => s

/-- Reviewer key an approval is tallied under:
`review['by'].get('username', 'unknown')`. -/
def reviewerOf (a : Approval) : String := a.byUsername.getD "unknown"

/-- The `disagreements` counter recorded for key `k` (0 when absent). -/
def disagreementsOf (rs : ReviewerStats) (k : String) : Nat :=
  ((lookupRev rs k).getD ReviewerStat.zero).disagreements

/-- The `total` counter recorded for key `k` (0 when absent). -/
def totalOf (rs : ReviewerStats) (k : String) : Nat :=
  ((lookupRev rs k).getD ReviewerStat.zero).total

/-- Membership test of `main`'s exclusion list:
`k.lower() in ('jenkins', 'smokestack')`. -/
def isExcludedName (k : String) : Bool :=
  lowerStr k == "jenkins" || lowerStr k == "smokestack"

/-- The list comprehension of reviewers.py line 120-121:
`[(v, k) for k, v in reviewers.iteritems() if k.lower() not in
('jenkins', 'smokestack')]`. -/
def filterReviewers (rs : ReviewerStats) : List (ReviewerStat × String) :=
  (rs.filter (fun p => !(isExcludedName p.1))).map (fun p => (p.2, p.1))

/-- `reviewers.sort(reverse=True, key=lambda r: r[0]['total'])` of line
122: a stable sort into non-increasing order of `total`. -/
def sortReviewers (l : List (ReviewerStat × String)) : List (ReviewerStat × String) :=
  l.mergeSort (fun a b => decide (b.1.total ≤ a.1.total))

/-- The rows of the emitted report, in emission order. -/
def reportRows (rs : ReviewerStats) : List (ReviewerStat × String) :=
  sortReviewers (filterReviewers rs)

/-- The `Total reviewers: %d` summary of line 165: the length of the
filtered list. -/
def totalReviewers (rs : ReviewerStats) : Nat :=
  (filterReviewers rs).length

/-- The ratio computation of reviewers.py lines 144-146:
`plus = votes['2'] + votes['1']`, `minus = votes['-2'] + votes['-1']`,
`ratio = (plus / (plus + minus)) * 100`. Python floats are modelled by
exact rationals (all values involved are exactly representable either
way), and the `ZeroDivisionError` Python raises when `plus + minus == 0`
is modelled by `none` — the source has no guard on this division. -/
def computeRatio (v : Votes) : Option ℚ :=
  let plus : ℚ := (v.p2 : ℚ) + (v.p1 : ℚ)
  let minus : ℚ := (v.m2 : ℚ) + (v.m1 : ℚ)
  if plus + minus = 0 then none
  else some (plus / (plus + minus) * 100)

/-- The disagreement-ratio computation of line 150, which — unlike the
plus-minus ratio — does guard its division:
`((float(k['disagreements']) / plus) * 100) if plus else 0.0`. -/
def disagreementRatio (s : ReviewerStat) : ℚ :=
  let plus : ℚ := (s.votes.p2 : ℚ) + (s.votes.p1 : ℚ)
  if plus = 0 then 0 else (s.disagreements : ℚ) / plus * 100

/-!
Helper lemmas about the dict operations and the two passes.
-/

theorem lookupRev_putRev (rs : ReviewerStats) (k k2 : String) (v : ReviewerStat) :
    lookupRev (putRev rs k v) k2 = if k = k2 then some v else lookupRev rs k2 := by
  induction rs with
  | nil => simp [putRev, lookupRev]
  | cons hd t ih =>
    obtain ⟨k3, s⟩ := hd
    by_cases h3 : k3 = k
    · subst h3
      simp only [putRev, if_pos rfl, lookupRev]
      by_cases hk2 : k3 = k2 <;> simp [hk2]
    · simp only [putRev, if_neg h3, lookupRev, ih]
      by_cases h32 : k3 = k2
      · subst h32
        simp [if_neg (Ne.symm h3)]
      · simp [h32]

theorem putRev_putRev (rs : ReviewerStats) (k : String) (v w : ReviewerStat) :
    putRev (putRev rs k v) k w = putRev rs k w := by
  induction rs with
  | nil => simp [putRev]
  | cons hd t ih =>
    obtain ⟨k3, s⟩ := hd
    by_cases h3 : k3 = k
    · subst h3; simp [putRev]
    · simp [putRev, if_neg h3, ih]

theorem tallyStep_skip_cutoff (cv : CoreVotes) (ts : Int) (rs : ReviewerStats)
    (a : Approval) (h : a.grantedOn < ts) : tallyStep cv ts rs a = .ok rs := by
  simp [tallyStep, h]

theorem tallyStep_skip_type (cv : CoreVotes) (ts : Int) (rs : ReviewerStats)
    (a : Approval) (h : a.type ≠ "CRVW") : tallyStep cv ts rs a = .ok rs := by
  simp only [tallyStep]
  split
  · rfl
  · simp [h]

theorem tallyStep_pos_eval (cv : CoreVotes) (ts : Int) (rs : ReviewerStats) (a : Approval)
    (hts : ¬ a.grantedOn < ts) (htype : a.type = "CRVW")
    (hv : a.value = "1" ∨ a.value = "2") :
    tallyStep cv ts rs a = .ok (putRev rs (reviewerOf a)
      (let s0 := (lookupRev rs (reviewerOf a)).getD ReviewerStat.zero
       { votes := s0.votes.put a.value ((s0.votes.get a.value).getD 0 + 1),
         total := s0.total + 1,
         disagreements := s0.disagreements + (if a.grantedOn < cv.neg then 1 else 0) })) := by
  rcases hv with hv | hv <;>
  · simp only [tallyStep, reviewerOf, if_neg hts, htype, hv]
    simp [Votes.get, Votes.put, putRev_putRev]
    split <;> simp [Votes.put]

theorem tallyStep_neg_eval (cv : CoreVotes) (ts : Int) (rs : ReviewerStats) (a : Approval)
    (hts : ¬ a.grantedOn < ts) (htype : a.type = "CRVW")
    (hv : a.value = "-1" ∨ a.value = "-2") :
    tallyStep cv ts rs a = .ok (putRev rs (reviewerOf a)
      (let s0 := (lookupRev rs (reviewerOf a)).getD ReviewerStat.zero
       { votes := s0.votes.put a.value ((s0.votes.get a.value).getD 0 + 1),
         total := s0.total + 1,
         disagreements := s0.disagreements + (if a.grantedOn < cv.pos then 1 else 0) })) := by
  rcases hv with hv | hv <;>
  · simp only [tallyStep, reviewerOf, if_neg hts, htype, hv]
    simp [Votes.get, Votes.put, putRev_putRev]
    split <;> simp [Votes.put]

theorem tallyStep_badvalue (cv : CoreVotes) (ts : Int) (rs : ReviewerStats) (a : Approval)
    (hts : ¬ a.grantedOn < ts) (htype : a.type = "CRVW")
    (h1 : a.value ≠ "-2") (h2 : a.value ≠ "-1") (h3 : a.value ≠ "1") (h4 : a.value ≠ "2") :
    tallyStep cv ts rs a = .error (putRev rs (reviewerOf a)
      (let s0 := (lookupRev rs (reviewerOf a)).getD ReviewerStat.zero
       { s0 with total := s0.total + 1 })) := by
  simp only [tallyStep, reviewerOf, if_neg hts, htype]
  simp [Votes.get, h1, h2, h3, h4]

/-- Spec-side characterisation for comparison with pass 1: an approval
that is a core-team CRVW vote with value at most 0. -/
def isCoreNegVote (project : Project) (a : Approval) : Bool :=
  a.type == "CRVW" &&
  decide ((a.byUsername.getD "unknown") ∈ project.coreTeam) &&
  (match pyInt a.value with
   | some v => decide (v ≤ 0)
   | none => false)

/-- Spec-side characterisation of `latest_core_neg_vote`: the maximum
`grantedOn` over all core-team CRVW approvals with value at most 0, and 0
when there is none. -/
def specLatestCoreNeg (project : Project) (l : List Approval) : Int :=
  ((l.filter (isCoreNegVote project)).map (fun a => a.grantedOn)).foldl max 0

theorem corePass_neg_eq_aux (project : Project) (l : List Approval) :
    ∀ acc cv, corePass project l acc = .ok cv →
      cv.neg = ((l.filter (isCoreNegVote project)).map (fun a => a.grantedOn)).foldl max acc.neg := by
  induction l with
  | nil =>
    intro acc cv h
    simp only [corePass] at h
    cases h
    simp
  | cons a rest ih =>
    intro acc cv h
    simp only [corePass, corePassStep] at h
    by_cases h1 : a.type = "CRVW"
    · simp only [h1, ne_eq, not_true_eq_false, if_false] at h
      by_cases h2 : (a.byUsername.getD "unknown") ∈ project.coreTeam
      · simp only [h2, not_true_eq_false, if_false] at h
        cases hv : pyInt a.value with
        | none => simp [hv] at h
        | some v =>
          simp only [hv] at h
          by_cases h3 : v > 0
          · rw [if_pos h3] at h
            have hle := ih _ _ h
            have hv0 : ¬ v ≤ 0 := by omega
            simp [List.filter_cons, isCoreNegVote, h1, h2, hv, hv0] at hle ⊢
            exact hle
          · rw [if_neg h3] at h
            have hle := ih _ _ h
            have hv0 : v ≤ 0 := by omega
            simp [List.filter_cons, isCoreNegVote, h1, h2, hv, hv0] at hle ⊢
            simpa using hle
      · simp only [h2, not_false_eq_true, if_true] at h
        have := ih _ _ h
        simp only [List.filter_cons, isCoreNegVote, h1, h2] at this ⊢
        simpa using this
    · rw [if_pos h1] at h
      have := ih _ _ h
      simp only [List.filter_cons, isCoreNegVote] at this ⊢
      simp [h1] at this ⊢
      exact this

theorem corePass_neg_eq (project : Project) (l : List Approval) (cv : CoreVotes)
    (h : corePass project l ⟨0, 0⟩ = .ok cv) :
    cv.neg = specLatestCoreNeg project l :=
  corePass_neg_eq_aux project l ⟨0, 0⟩ cv h

theorem corePassStep_skip_type (project : Project) (acc : CoreVotes) (a : Approval)
    (h : a.type ≠ "CRVW") : corePassStep project acc a = .ok acc := by
  simp [corePassStep, h]

theorem corePassStep_skip_noncore (project : Project) (acc : CoreVotes) (a : Approval)
    (h : (a.byUsername.getD "unknown") ∉ project.coreTeam) :
    corePassStep project acc a = .ok acc := by
  simp only [corePassStep]
  split
  · rfl
  · simp [h]

theorem corePassStep_core_eval (project : Project) (acc : CoreVotes) (a : Approval)
    (v : Int) (h1 : a.type = "CRVW")
    (h2 : (a.byUsername.getD "unknown") ∈ project.coreTeam)
    (h3 : pyInt a.value = some v) :
    corePassStep project acc a = .ok
      (if v > 0 then { acc with pos := max acc.pos a.grantedOn }
       else { acc with neg := max acc.neg a.grantedOn }) := by
  simp only [corePassStep, h1, h2, h3]
  simp
  split <;> rfl

theorem tallyStep_merge_low_neg (cv : CoreVotes) (ts : Int) (rs : ReviewerStats)
    (a : Approval) (c : Int) (hc : c < ts) :
    tallyStep ⟨max cv.neg c, cv.pos⟩ ts rs a = tallyStep cv ts rs a := by
  by_cases hts : a.grantedOn < ts
  · rw [tallyStep_skip_cutoff _ _ _ _ hts, tallyStep_skip_cutoff _ _ _ _ hts]
  · have hneg : (a.grantedOn < max cv.neg c) = (a.grantedOn < cv.neg) := by
      rw [eq_iff_iff, lt_max_iff]
      omega
    simp only [tallyStep, hneg]

theorem tallyStep_merge_low_pos (cv : CoreVotes) (ts : Int) (rs : ReviewerStats)
    (a : Approval) (c : Int) (hc : c < ts) :
    tallyStep ⟨cv.neg, max cv.pos c⟩ ts rs a = tallyStep cv ts rs a := by
  by_cases hts : a.grantedOn < ts
  · rw [tallyStep_skip_cutoff _ _ _ _ hts, tallyStep_skip_cutoff _ _ _ _ hts]
  · have hpos : (a.grantedOn < max cv.pos c) = (a.grantedOn < cv.pos) := by
      rw [eq_iff_iff, lt_max_iff]
      omega
    simp only [tallyStep, hpos]

theorem tallyPass_merge_low_neg (cv : CoreVotes) (ts : Int) (rs : ReviewerStats)
    (l : List Approval) (c : Int) (hc : c < ts) :
    tallyPass ⟨max cv.neg c, cv.pos⟩ ts rs l = tallyPass cv ts rs l := by
  induction l generalizing rs with
  | nil => rfl
  | cons a rest ih =>
    simp only [tallyPass, tallyStep_merge_low_neg cv ts rs a c hc]
    cases h : tallyStep cv ts rs a with
    | error s => rfl
    | ok rs2 => exact ih rs2

theorem tallyPass_merge_low_pos (cv : CoreVotes) (ts : Int) (rs : ReviewerStats)
    (l : List Approval) (c : Int) (hc : c < ts) :
    tallyPass ⟨cv.neg, max cv.pos c⟩ ts rs l = tallyPass cv ts rs l := by
  induction l generalizing rs with
  | nil => rfl
  | cons a rest ih =>
    simp only [tallyPass, tallyStep_merge_low_pos cv ts rs a c hc]
    cases h : tallyStep cv ts rs a with
    | error s => rfl
    | ok rs2 => exact ih rs2

/-- Componentwise order on reviewer entries: every counter of the first
is at most the matching counter of the second. -/
def statLE (s1 s2 : ReviewerStat) : Prop :=
  s1.total ≤ s2.total ∧ s1.disagreements ≤ s2.disagreements ∧
  s1.votes.m2 ≤ s2.votes.m2 ∧ s1.votes.m1 ≤ s2.votes.m1 ∧
  s1.votes.p1 ≤ s2.votes.p1 ∧ s1.votes.p2 ≤ s2.votes.p2

/-- Accumulation order on reviewer mappings: every entry of the first is
still present in the second, with componentwise larger-or-equal counters. -/
def mapLE (rs1 rs2 : ReviewerStats) : Prop :=
  ∀ k s1, lookupRev rs1 k = some s1 → ∃ s2, lookupRev rs2 k = some s2 ∧ statLE s1 s2

theorem statLE_refl (s : ReviewerStat) : statLE s s := by
  simp [statLE]

theorem statLE_trans {s1 s2 s3 : ReviewerStat} (h1 : statLE s1 s2) (h2 : statLE s2 s3) :
    statLE s1 s3 := by
  obtain ⟨a1, b1, c1, d1, e1, f1⟩ := h1
  obtain ⟨a2, b2, c2, d2, e2, f2⟩ := h2
  exact ⟨a1.trans a2, b1.trans b2, c1.trans c2, d1.trans d2, e1.trans e2, f1.trans f2⟩

theorem mapLE_refl (rs : ReviewerStats) : mapLE rs rs := by
  intro k s1 h
  exact ⟨s1, h, statLE_refl s1⟩

theorem mapLE_trans {rs1 rs2 rs3 : ReviewerStats} (h1 : mapLE rs1 rs2) (h2 : mapLE rs2 rs3) :
    mapLE rs1 rs3 := by
  intro k s1 h
  obtain ⟨s2, hl2, hs2⟩ := h1 k s1 h
  obtain ⟨s3, hl3, hs3⟩ := h2 k s2 hl2
  exact ⟨s3, hl3, statLE_trans hs2 hs3⟩

theorem mapLE_putRev (rs : ReviewerStats) (k : String) (v : ReviewerStat)
    (h : statLE ((lookupRev rs k).getD ReviewerStat.zero) v) :
    mapLE rs (putRev rs k v) := by
  intro k2 s1 hl
  rw [lookupRev_putRev]
  by_cases hk : k = k2
  · subst hk
    refine ⟨v, by simp, ?_⟩
    rw [hl] at h
    simpa using h
  · exact ⟨s1, by simp [hk, hl], statLE_refl s1⟩

theorem tallyStep_mono (cv : CoreVotes) (ts : Int) (rs : ReviewerStats) (a : Approval) :
    mapLE rs (runState (tallyStep cv ts rs a)) := by
  by_cases hts : a.grantedOn < ts
  · rw [tallyStep_skip_cutoff _ _ _ _ hts]
    exact mapLE_refl rs
  · by_cases htype : a.type = "CRVW"
    · by_cases hv1 : a.value = "1"
      · rw [tallyStep_pos_eval cv ts rs a hts htype (Or.inl hv1)]
        exact mapLE_putRev _ _ _
          (by simp [statLE, Votes.put, Votes.get, hv1])
      · by_cases hv2 : a.value = "2"
        · rw [tallyStep_pos_eval cv ts rs a hts htype (Or.inr hv2)]
          exact mapLE_putRev _ _ _
            (by simp [statLE, Votes.put, Votes.get, hv2])
        · by_cases hv3 : a.value = "-1"
          · rw [tallyStep_neg_eval cv ts rs a hts htype (Or.inl hv3)]
            exact mapLE_putRev _ _ _
              (by simp [statLE, Votes.put, Votes.get, hv3])
          · by_cases hv4 : a.value = "-2"
            · rw [tallyStep_neg_eval cv ts rs a hts htype (Or.inr hv4)]
              exact mapLE_putRev _ _ _
                (by simp [statLE, Votes.put, Votes.get, hv4])
            · rw [tallyStep_badvalue cv ts rs a hts htype hv4 hv3 hv1 hv2]
              exact mapLE_putRev _ _ _ (by simp [statLE])
    · rw [tallyStep_skip_type _ _ _ _ htype]
      exact mapLE_refl rs

theorem tallyPass_mono (cv : CoreVotes) (ts : Int) (l : List Approval) :
    ∀ rs, mapLE rs (runState (tallyPass cv ts rs l)) := by
  induction l with
  | nil => intro rs; exact mapLE_refl rs
  | cons a rest ih =>
    intro rs
    have hstep := tallyStep_mono cv ts rs a
    cases h : tallyStep cv ts rs a with
    | error s =>
      rw [h] at hstep
      simpa [tallyPass, h] using hstep
    | ok rs2 =>
      rw [h] at hstep
      simp only [tallyPass, h]
      exact mapLE_trans hstep (ih rs2)

theorem process_patchset_mono (project : Project) (patchset : PatchSet)
    (rs : ReviewerStats) (ts : Int) :
    mapLE rs (runState (process_patchset project patchset rs ts)) := by
  unfold process_patchset
  cases h : corePass project patchset.approvals ⟨0, 0⟩ with
  | error e => exact mapLE_refl rs
  | ok cv => exact tallyPass_mono cv ts patchset.approvals rs

theorem mem_sortReviewers (l : List (ReviewerStat × String)) (p : ReviewerStat × String) :
    p ∈ sortReviewers l ↔ p ∈ l := by
  simp [sortReviewers]

theorem mem_filterReviewers (rs : ReviewerStats) (p : ReviewerStat × String) :
    p ∈ filterReviewers rs ↔ (p.2, p.1) ∈ rs ∧ isExcludedName p.2 = false := by
  constructor
  · intro h
    simp only [filterReviewers, List.mem_map, List.mem_filter] at h
    obtain ⟨q, ⟨hq, hex⟩, hpq⟩ := h
    cases hpq
    exact ⟨hq, by simpa using hex⟩
  · intro ⟨h1, h2⟩
    simp only [filterReviewers, List.mem_map, List.mem_filter]
    exact ⟨(p.2, p.1), ⟨h1, by simpa using h2⟩, rfl⟩

theorem sortReviewers_pairwise (l : List (ReviewerStat × String)) :
    (sortReviewers l).Pairwise (fun a b => b.1.total ≤ a.1.total) := by
  have h := @List.sorted_mergeSort (ReviewerStat × String)
    (fun a b => decide (b.1.total ≤ a.1.total))
    (fun a b c hab hbc => by
      simp only [decide_eq_true_eq] at hab hbc ⊢
      omega)
    (fun a b => by
      simp only [Bool.or_eq_true, decide_eq_true_eq]
      omega) l
  exact h.imp (fun hab => by simpa using hab)

/-!
Concrete fixtures for scenario evaluations and witnesses.
-/

/-- A project whose core team is exactly alice. -/
def novaProject : Project := ⟨"nova", ["alice"]⟩

/-- Core member alice votes CRVW -2 at t=100. -/
def coreNeg100 : Approval := ⟨"CRVW", "-2", some "alice", 100⟩

/-- Non-core reviewer bob votes CRVW +2 at t=50. -/
def bobPlus50 : Approval := ⟨"CRVW", "2", some "bob", 50⟩

/-- Non-core reviewer bob votes CRVW +2 at t=200. -/
def bobPlus200 : Approval := ⟨"CRVW", "2", some "bob", 200⟩

/-- Scenario 1 of the spec: bob's +2 at t=50 precedes alice's -2 at t=100. -/
def scenario1 : PatchSet := ⟨[coreNeg100, bobPlus50]⟩

/-- Scenario 2 of the spec: bob's +2 at t=200 follows alice's -2 at t=100. -/
def scenario2 : PatchSet := ⟨[coreNeg100, bobPlus200]⟩

/-- A counted CRVW approval whose value string is "0": not one of the four
vote labels of the `votes` dict. -/
def valueZeroPatchset : PatchSet := ⟨[⟨"CRVW", "0", some "carol", 100⟩]⟩

/-- A counted CRVW approval with value "0" and no `by.username` field. -/
def missingUserZeroPatchset : PatchSet := ⟨[⟨"CRVW", "0", none, 100⟩]⟩

/-!
The claims.
-/

/-- C1: for every counted CRVW approval with value in {1, 2}, pass 2
increments the reviewer's `disagreements` exactly when the approval's
`grantedOn` is strictly below `latest_core_neg_vote`; pass 1's
`latest_core_neg_vote` is the maximum `grantedOn` over the patchset's
core-team CRVW approvals with value at most 0 (0 when none, the latch's
start); and in scenario 1 (core -2 at t=100, reviewer +2 at t=50,
cutoff 0) the reviewer ends with `disagreements` 1, while with the +2 at
t=200 instead the reviewer ends with 0. -/
theorem C1_positive_vote_disagreement :
    (∀ (cv : CoreVotes) (ts : Int) (rs : ReviewerStats) (a : Approval),
        a.type = "CRVW" → ¬ a.grantedOn < ts → (a.value = "1" ∨ a.value = "2") →
        ∃ rs2, tallyStep cv ts rs a = .ok rs2 ∧
          disagreementsOf rs2 (reviewerOf a) =
            disagreementsOf rs (reviewerOf a) +
              (if a.grantedOn < cv.neg then 1 else 0)) ∧
    (∀ (project : Project) (l : List Approval) (cv : CoreVotes),
        corePass project l ⟨0, 0⟩ = .ok cv → cv.neg = specLatestCoreNeg project l) ∧
    disagreementsOf (runState (process_patchset novaProject scenario1 [] 0)) "bob" = 1 ∧
    disagreementsOf (runState (process_patchset novaProject scenario2 [] 0)) "bob" = 0 := by
  refine ⟨?_, corePass_neg_eq, by decide, by decide⟩
  intro cv ts rs a htype hts hv
  refine ⟨_, tallyStep_pos_eval cv ts rs a hts htype hv, ?_⟩
  simp [disagreementsOf, lookupRev_putRev]

/-- Witness for C1 at a concrete input: bob's +2 at t=50 against a
core-negative latch of 100 yields exactly one increment. -/
theorem C1_positive_vote_disagreement_witness :
    ∃ rs2, tallyStep ⟨100, 0⟩ 0 [] bobPlus50 = .ok rs2 ∧
      disagreementsOf rs2 (reviewerOf bobPlus50) =
        disagreementsOf [] (reviewerOf bobPlus50) +
          (if bobPlus50.grantedOn < (⟨100, 0⟩ : CoreVotes).neg then 1 else 0) :=
  C1_positive_vote_disagreement.1 ⟨100, 0⟩ 0 [] bobPlus50 rfl (by decide) (Or.inr rfl)

/-- C2 counterexample: the claim's final part — that a cutoff-excluded
core vote "can thereby cause disagreement increments for other, counted
approvals" — is impossible. Folding any timestamp `c` below the cutoff
into either pass-1 latch never changes the outcome of pass 2 on any
approval list: a counted approval's `grantedOn` is at least `ts`, hence
above `c`, so the comparison against the merged latch is unchanged. -/
theorem C2_sub_cutoff_vote_never_causes_disagreement :
    ¬ ∃ (cv : CoreVotes) (ts : Int) (rs : ReviewerStats) (l : List Approval) (c : Int),
        c < ts ∧
        (tallyPass ⟨max cv.neg c, cv.pos⟩ ts rs l ≠ tallyPass cv ts rs l ∨
         tallyPass ⟨cv.neg, max cv.pos c⟩ ts rs l ≠ tallyPass cv ts rs l) := by
  rintro ⟨cv, ts, rs, l, c, hc, h | h⟩
  · exact h (tallyPass_merge_low_neg cv ts rs l c hc)
  · exact h (tallyPass_merge_low_pos cv ts rs l c hc)

/-- C2 amended: an approval with `grantedOn` below the cutoff never
touches any reviewer's counters (pass 2 skips it); a core-team CRVW
approval still latches into `latest_core_pos_vote` or
`latest_core_neg_vote` regardless of the cutoff (pass 1 never consults
`ts`, in particular also when `grantedOn < ts`); but merging a
sub-cutoff timestamp into either latch can never change the tallying or
disagreement outcome for the counted approvals. -/
theorem C2_cutoff_exclusion :
    (∀ (cv : CoreVotes) (ts : Int) (rs : ReviewerStats) (a : Approval),
        a.grantedOn < ts → tallyStep cv ts rs a = .ok rs) ∧
    (∀ (project : Project) (acc : CoreVotes) (a : Approval) (v : Int) (ts : Int),
        a.type = "CRVW" → (a.byUsername.getD "unknown") ∈ project.coreTeam →
        pyInt a.value = some v → a.grantedOn < ts →
        corePassStep project acc a = .ok
          (if v > 0 then { acc with pos := max acc.pos a.grantedOn }
           else { acc with neg := max acc.neg a.grantedOn })) ∧
    (∀ (cv : CoreVotes) (ts : Int) (rs : ReviewerStats) (l : List Approval) (c : Int),
        c < ts →
        tallyPass ⟨max cv.neg c, cv.pos⟩ ts rs l = tallyPass cv ts rs l ∧
        tallyPass ⟨cv.neg, max cv.pos c⟩ ts rs l = tallyPass cv ts rs l) :=
  ⟨tallyStep_skip_cutoff,
   fun p acc a v _ h1 h2 h3 _ => corePassStep_core_eval p acc a v h1 h2 h3,
   fun cv ts rs l c hc =>
     ⟨tallyPass_merge_low_neg cv ts rs l c hc, tallyPass_merge_low_pos cv ts rs l c hc⟩⟩

/-- Witness for C2 at a concrete input: with cutoff 60, bob's +2 at t=50
is skipped by pass 2, and alice's core -2 at t=50 still latches into
`latest_core_neg_vote`. -/
theorem C2_cutoff_exclusion_witness :
    tallyStep ⟨0, 0⟩ 60 [] bobPlus50 = .ok [] ∧
    corePassStep novaProject ⟨0, 0⟩ ⟨"CRVW", "-2", some "alice", 50⟩ =
      .ok (if (-2 : Int) > 0
           then { neg := (0 : Int), pos := max 0 (50 : Int) }
           else { neg := max 0 (50 : Int), pos := (0 : Int) }) :=
  ⟨C2_cutoff_exclusion.1 ⟨0, 0⟩ 60 [] bobPlus50 (by decide),
   C2_cutoff_exclusion.2.1 novaProject ⟨0, 0⟩ ⟨"CRVW", "-2", some "alice", 50⟩ (-2) 60
     rfl (by decide) (by decide) (by decide)⟩

/-- C3: an approval whose type is not CRVW (APRV, Workflow, ...) leaves
the reviewer mapping untouched in pass 2 and the core-vote latches
untouched in pass 1: it affects no reviewer's votes, total, or
disagreements, and contributes to neither `latest_core_pos_vote` nor
`latest_core_neg_vote`. -/
theorem C3_non_crvw_ignored :
    (∀ (cv : CoreVotes) (ts : Int) (rs : ReviewerStats) (a : Approval),
        a.type ≠ "CRVW" → tallyStep cv ts rs a = .ok rs) ∧
    (∀ (project : Project) (acc : CoreVotes) (a : Approval),
        a.type ≠ "CRVW" → corePassStep project acc a = .ok acc) :=
  ⟨tallyStep_skip_type, corePassStep_skip_type⟩

/-- Witness for C3 at a concrete input: a counted APRV vote by core
member alice changes neither the mapping nor the latches. -/
theorem C3_non_crvw_ignored_witness :
    tallyStep ⟨0, 0⟩ 0 [] ⟨"APRV", "2", some "alice", 100⟩ = .ok [] ∧
    corePassStep novaProject ⟨0, 0⟩ ⟨"APRV", "2", some "alice", 100⟩ = .ok ⟨0, 0⟩ :=
  ⟨C3_non_crvw_ignored.1 ⟨0, 0⟩ 0 [] ⟨"APRV", "2", some "alice", 100⟩ (by decide),
   C3_non_crvw_ignored.2 novaProject ⟨0, 0⟩ ⟨"APRV", "2", some "alice", 100⟩ (by decide)⟩

/-- C4: evaluation of the report builder's ratio computation (lines
144-146) at the failing input. With all four vote counts zero
(`plus + minus == 0`) the unguarded division raises `ZeroDivisionError`
(`none`) instead of returning the sentinel 0.0 the claim requires; with
`plus = 0, minus = 3` it does return 0. -/
theorem C4_ratio_division_by_zero :
    computeRatio Votes.zero = none ∧ computeRatio ⟨3, 0, 0, 0⟩ = some 0 := by
  constructor
  · simp [computeRatio, Votes.zero]
  · norm_num [computeRatio]

/-- C5: evaluation of `process_patchset` at the failing input. A counted
CRVW approval with value "0" raises a `KeyError` on `votes['0']`
(`.error`), and the mapping is not left as if the approval were absent:
the entry for carol has already been created with `total` bumped to 1. -/
theorem C5_unknown_value_keyerror :
    process_patchset novaProject valueZeroPatchset [] 0 =
      .error [("carol", { votes := Votes.zero, total := 1, disagreements := 0 })] := rfl

/-- C6: evaluation of `process_patchset` at the failing input. A counted
approval lacking `by.username` is resolved to the synthetic reviewer key
"unknown" (the partial tally lands there), but with value "0" the call
still raises a `KeyError` rather than never raising, because the vote
lookup — not the username resolution — fails. -/
theorem C6_missing_username_keyerror :
    process_patchset novaProject missingUserZeroPatchset [] 0 =
      .error [("unknown", { votes := Votes.zero, total := 1, disagreements := 0 })] := rfl

/-- C7: no row of the report is keyed "jenkins" or "smokestack" under
case-insensitive comparison, whatever the accumulated mapping; and an
entry with such a key contributes neither a row nor a unit to the
total-reviewers summary. -/
theorem C7_bot_accounts_excluded :
    (∀ (rs : ReviewerStats) (p : ReviewerStat × String), p ∈ reportRows rs →
        lowerStr p.2 ≠ "jenkins" ∧ lowerStr p.2 ≠ "smokestack") ∧
    (∀ (rs : ReviewerStats) (k : String) (s : ReviewerStat), isExcludedName k = true →
        reportRows ((k, s) :: rs) = reportRows rs ∧
        totalReviewers ((k, s) :: rs) = totalReviewers rs) := by
  constructor
  · intro rs p hp
    rw [reportRows, mem_sortReviewers, mem_filterReviewers] at hp
    have hx := hp.2
    simp only [isExcludedName, Bool.or_eq_false_iff, beq_eq_false_iff_ne] at hx
    exact hx
  · intro rs k s hex
    have hfilter : filterReviewers ((k, s) :: rs) = filterReviewers rs := by
      simp [filterReviewers, List.filter_cons, hex]
    exact ⟨by rw [reportRows, reportRows, hfilter], by rw [totalReviewers, totalReviewers, hfilter]⟩

/-- Witness for C7 at a concrete input: an entry keyed "Jenkins" yields
no row and is not counted. -/
theorem C7_bot_accounts_excluded_witness :
    reportRows [("Jenkins", ReviewerStat.zero)] = reportRows [] ∧
    totalReviewers [("Jenkins", ReviewerStat.zero)] = totalReviewers [] :=
  C7_bot_accounts_excluded.2 [] "Jenkins" ReviewerStat.zero (by decide)

/-- C8: the rows of the report appear in non-increasing order of `total`:
every row's `total` is at least that of every later row (so in particular
of the adjacent next row). -/
theorem C8_rows_sorted_descending (rs : ReviewerStats) :
    (reportRows rs).Pairwise (fun a b => b.1.total ≤ a.1.total) :=
  sortReviewers_pairwise (filterReviewers rs)

/-- C9: one counted approval increments the reviewer's `disagreements`
at most once: the positive rule and the negative rule cannot both fire
because the value string cannot be both positive and negative, so every
key's counter grows by at most 1 across a successful `tallyStep`. -/
theorem C9_at_most_one_disagreement_increment :
    ∀ (cv : CoreVotes) (ts : Int) (rs : ReviewerStats) (a : Approval) (rs2 : ReviewerStats),
      tallyStep cv ts rs a = .ok rs2 →
      ∀ k, disagreementsOf rs2 k ≤ disagreementsOf rs k + 1 := by
  intro cv ts rs a rs2 h k
  by_cases hts : a.grantedOn < ts
  · rw [tallyStep_skip_cutoff _ _ _ _ hts] at h
    cases h
    omega
  · by_cases htype : a.type = "CRVW"
    · have hgood : ∀ b : Int,
          rs2 = putRev rs (reviewerOf a)
            (let s0 := (lookupRev rs (reviewerOf a)).getD ReviewerStat.zero
             { votes := s0.votes.put a.value ((s0.votes.get a.value).getD 0 + 1),
               total := s0.total + 1,
               disagreements := s0.disagreements + (if a.grantedOn < b then 1 else 0) }) →
          disagreementsOf rs2 k ≤ disagreementsOf rs k + 1 := by
        intro b heval
        subst heval
        simp only [disagreementsOf, lookupRev_putRev]
        by_cases hk : reviewerOf a = k
        · rw [if_pos hk, hk]
          simp only [Option.getD_some]
          split <;> omega
        · rw [if_neg hk]
          omega
      by_cases hv1 : a.value = "1"
      · refine hgood cv.neg ?_
        rw [tallyStep_pos_eval cv ts rs a hts htype (.inl hv1)] at h
        cases h
        rfl
      · by_cases hv2 : a.value = "2"
        · refine hgood cv.neg ?_
          rw [tallyStep_pos_eval cv ts rs a hts htype (.inr hv2)] at h
          cases h
          rfl
        · by_cases hv3 : a.value = "-1"
          · refine hgood cv.pos ?_
            rw [tallyStep_neg_eval cv ts rs a hts htype (.inl hv3)] at h
            cases h
            rfl
          · by_cases hv4 : a.value = "-2"
            · refine hgood cv.pos ?_
              rw [tallyStep_neg_eval cv ts rs a hts htype (.inr hv4)] at h
              cases h
              rfl
            · rw [tallyStep_badvalue cv ts rs a hts htype hv4 hv3 hv1 hv2] at h
              exact Except.noConfusion h
    · rw [tallyStep_skip_type _ _ _ _ htype] at h
      cases h
      omega

/-- Witness for C9 at a concrete input: bob's +2 at t=50 against a
core-negative latch of 100 grows his counter from 0 to at most 1. -/
theorem C9_at_most_one_disagreement_increment_witness :
    ∃ rs2, tallyStep ⟨100, 200⟩ 0 [] bobPlus50 = .ok rs2 ∧
      ∀ k, disagreementsOf rs2 k ≤ disagreementsOf [] k + 1 := by
  refine ⟨runState (tallyStep ⟨100, 200⟩ 0 [] bobPlus50), rfl, ?_⟩
  exact C9_at_most_one_disagreement_increment ⟨100, 200⟩ 0 [] bobPlus50 _ rfl

/-- C10: `process_patchset` only accumulates: every reviewer entry
present before a call is still present afterwards — also when the call
raises — with `total`, `disagreements`, and each of the four vote counts
at least their old values; and a patchset with an empty (equivalently,
absent) approvals list returns the mapping unchanged. -/
theorem C10_monotone_accumulation :
    ∀ (project : Project) (patchset : PatchSet) (rs : ReviewerStats) (ts : Int),
      mapLE rs (runState (process_patchset project patchset rs ts)) ∧
      (patchset.approvals = [] → process_patchset project patchset rs ts = .ok rs) := by
  intro project patchset rs ts
  refine ⟨process_patchset_mono project patchset rs ts, ?_⟩
  intro h
  simp [process_patchset, h, corePass, tallyPass]

/-- Witness for C10 at a concrete input: an empty patchset leaves a
one-entry mapping exactly unchanged. -/
theorem C10_monotone_accumulation_witness :
    process_patchset novaProject ⟨[]⟩ [("bob", ReviewerStat.zero)] 5 =
      .ok [("bob", ReviewerStat.zero)] :=
  (C10_monotone_accumulation novaProject ⟨[]⟩ [("bob", ReviewerStat.zero)] 5).2 rfl
